import Mathlib

/-!
Verification of `gofigr/models.py` (GoFigr python client).

The development shallowly embeds the data model of `models.py`:
field descriptors (`Field`, `JSONField`, `Timestamp`, `LinkedEntityField`,
`NestedEntityField`), the `ModelMixin` entity machinery (`__getattr__`,
`__setattr__`, `fetch`, `_update_properties`, `to_json`, `__eq__`, `create`,
`delete`), `LinkedEntityCollection` (`find`, `create`), and the binary
`Data` hierarchy (`Data`, `ImageData`, `CodeData`, `TextData`, `TableData`)
with its JSON round trip through base-64 payloads.

Stateful methods are modelled as pure functions from the observable object
state to the new state, together with the list of network requests issued;
exceptions are modelled with `Except`.
-/

namespace GoFigr

/-- Python exception classes raised on the code paths modelled here:
`AttributeError`, `ValueError`, `RuntimeError`, `TypeError` (e.g.
`b64decode(None)`), `binascii.Error` (invalid base-64 text), and HTTP-level
failures surfaced by the transport. -/
inductive PyErr where
  | attributeError
  | valueError
  | runtimeError
  | typeError
  | binasciiError
  | httpError
deriving DecidableEq

/-- A parsed datetime (the result of `dateutil.parser.parse`), identified by
its canonical textual rendering: on valid datetimes `str` and
`dateutil.parser.parse` are mutually inverse, so we carry the canonical
string itself. -/
structure Datetime where
  iso : String
deriving DecidableEq

/-- Python primitive values as stored in entity attributes and JSON wire
objects: `None`, strings, integers, booleans, and parsed datetimes.
(Aggregate JSON values never reach the code paths proved about.) -/
inductive PyVal where
  | none
  | str (s : String)
  | int (n : Int)
  | bool (b : Bool)
  | time (t : Datetime)
deriving DecidableEq

/-- Python dictionary lookup (`d[k]` / `d.get(k)`): dictionaries are
modelled as key-unique association lists, first binding wins. -/
def alookup {κ α : Type} [DecidableEq κ] : List (κ × α) → κ → Option α
  | [], _ => Option.none
  | (k, v) :: rest, key => if k = key then some v else alookup rest key

/-- Python dictionary write `d[k] = v`: overwrite the existing binding in
place, or append a new one (dicts preserve insertion order). -/
def aset {κ α : Type} [DecidableEq κ] : List (κ × α) → κ → α → List (κ × α)
  | [], key, v => [(key, v)]
  | (k, w) :: rest, key, v =>
      if k = key then (key, v) :: rest else (k, w) :: aset rest key v

/-- The kinds of serializing field descriptor on entity classes modelled by
the generic entity state: plain `Field`/`JSONField` (identity serialization)
and `Timestamp`. (`LinkedEntityField` and `NestedEntityField` are modelled
separately below.) -/
inductive FieldKind where
  | plain
  | timestamp
deriving DecidableEq

/-- A field descriptor: serialization kind plus the `derived` flag (derived
fields are excluded from REST payloads on request). -/
structure FieldDesc where
  kind : FieldKind
  derived : Bool
deriving DecidableEq

/-- `Timestamp.to_representation`: `str(value) if value is not None else
None`. `str` of a datetime is its canonical rendering and `str` of a string
is itself; other primitives do not occur as timestamp values. -/
def tsToRep : PyVal → PyVal
  | PyVal.none => PyVal.none
  | PyVal.time t => PyVal.str t.iso
  | PyVal.str s => PyVal.str s
  | v => v

/-- `to_representation` of the plain and timestamp descriptors. -/
def toRep : FieldKind → PyVal → PyVal
  | .plain, v => v
  | .timestamp, v => tsToRep v

/-- `to_internal_value` of the plain and timestamp descriptors: plain fields
store the JSON primitive verbatim; `Timestamp` parses the string
(`dateutil.parser.parse(data) if data is not None else None`), raising on a
non-string argument. -/
def toInternal : FieldKind → PyVal → Except PyErr PyVal
  | .plain, v => .ok v
  | .timestamp, PyVal.none => .ok PyVal.none
  | .timestamp, PyVal.str s => .ok (PyVal.time ⟨s⟩)
  | .timestamp, _ => .error .typeError

/-- Python truthiness of the modelled primitives. -/
def pyTruthy : PyVal → Bool
  | PyVal.none => false
  | PyVal.str s => s != ""
  | PyVal.int n => n != 0
  | PyVal.bool b => b
  | PyVal.time _ => true

/-- The observable state of a `ModelMixin` instance after `__init__`: the
endpoint (a class attribute), the field table `self.fields`, the `lazy`
flag, `self._has_data`, and the instance dictionary restricted to the
attributes the model manages (declared fields plus any directly assigned
names). -/
structure Entity where
  endpoint : String
  schema : List (String × FieldDesc)
  lazy : Bool
  hasData : Bool
  attrs : List (String × PyVal)
deriving DecidableEq

/-- A plain attribute store, `object.__setattr__`. -/
def rawSet (e : Entity) (k : String) (v : PyVal) : Entity :=
  { e with attrs := aset e.attrs k v }

/-- `key in self.fields`. -/
def declared (e : Entity) (k : String) : Bool :=
  (alookup e.schema k).isSome

/-- `self.api_id`; the constructor always stores it, absence is `None`. -/
def apiIdOf (e : Entity) : PyVal :=
  (alookup e.attrs "api_id").getD PyVal.none

/-- Network requests issued through the `GoFigr` transport (`_get`, `_post`,
`_delete`); URL formation (`urljoin(endpoint, api_id)`) is abstracted to the
endpoint together with the API id. -/
inductive NetOp where
  | get (endpoint : String) (apiId : PyVal)
  | post (endpoint : String) (body : List (String × PyVal))
  | del (endpoint : String) (apiId : PyVal)
deriving DecidableEq

/-- Remote server behaviour for GET requests: endpoint and API id map to an
HTTP failure or to the JSON body of the stored entity. -/
def Server : Type := String → PyVal → Except PyErr (List (String × PyVal))

/-- `ModelMixin._update_properties(props, parse)`: names not in
`self.fields` are skipped (the `raise ValueError(f"Unknown field: ...")` in
the source is commented out); declared names are parsed through the field's
`to_internal_value` when `parse` holds and stored with `setattr`. This
variant performs the stores as plain writes: it is the behaviour of
`__setattr__` whenever `self._has_data` is already true, which holds at
every call site where it is used (see `updatePropsT_eq_of_hasData`). -/
def updateProps0 (e : Entity) (props : List (String × PyVal)) (parse : Bool) :
    Except PyErr Entity :=
  match props with
  | [] => .ok e
  | kv :: rest =>
    match alookup e.schema kv.1 with
    | Option.none => updateProps0 e rest parse
    | some d =>
      match (if parse then toInternal d.kind kv.2 else .ok kv.2) with
      | .error err => .error err
      | .ok v => updateProps0 (rawSet e kv.1 v) rest parse

/-- `ModelMixin.fetch()`: `_check_api_id`, GET the object, set
`self._has_data = True`, then absorb the response through
`_update_properties`. Every store inside the absorption sees
`_has_data = true`, so no nested fetch occurs and `updateProps0` is the
faithful absorption. The trace lists the requests issued; when an exception
escapes, the pre-call state is reported (the partially mutated state of a
failed absorption is not tracked, and no theorem below depends on it). -/
def fetchT (srv : Server) (e : Entity) : Except PyErr Entity × List NetOp :=
  if apiIdOf e = PyVal.none then (.error .runtimeError, [])
  else
    match srv e.endpoint (apiIdOf e) with
    | .error err => (.error err, [NetOp.get e.endpoint (apiIdOf e)])
    | .ok body =>
        (updateProps0 { e with hasData := true } body true,
         [NetOp.get e.endpoint (apiIdOf e)])

/-- The fetch condition computed by `ModelMixin.__setattr__`:
`key != 'api_id' and key in self.fields and self.lazy and not
self._has_data`. -/
def doFetchCond (e : Entity) (k : String) : Bool :=
  k != "api_id" && declared e k && e.lazy && !e.hasData

/-- `ModelMixin.__setattr__`: fetch first when the fetch condition holds,
then perform the plain store on the fetched state. -/
def setattrT (srv : Server) (e : Entity) (k : String) (v : PyVal) :
    Except PyErr Entity × List NetOp :=
  if doFetchCond e k then
    match fetchT srv e with
    | (.ok e1, t) => (.ok (rawSet e1 k v), t)
    | (.error err, t) => (.error err, t)
  else (.ok (rawSet e k v), [])

/-- `_update_properties` with every store going through the full
`__setattr__`; used where the receiver may still be lazy and unloaded
(e.g. absorbing a `create` response). -/
def updatePropsT (srv : Server) (e : Entity) (props : List (String × PyVal))
    (parse : Bool) : Except PyErr Entity × List NetOp :=
  match props with
  | [] => (.ok e, [])
  | kv :: rest =>
    match alookup e.schema kv.1 with
    | Option.none => updatePropsT srv e rest parse
    | some d =>
      match (if parse then toInternal d.kind kv.2 else .ok kv.2) with
      | .error err => (.error err, [])
      | .ok v =>
        match setattrT srv e kv.1 v with
        | (.ok e1, t) =>
          match updatePropsT srv e1 rest parse with
          | (res, t2) => (res, t ++ t2)
        | (.error err, t) => (.error err, t)

/-- Python attribute read on an entity: the instance dictionary first; on a
miss, `ModelMixin.__getattr__` raises for undeclared names, for non-lazy
instances, and for lazy instances that already hold data, and otherwise
fetches once and re-reads. Returns the value, the possibly mutated entity,
and the network trace. -/
def getattrT (srv : Server) (e : Entity) (k : String) :
    Except PyErr PyVal × Entity × List NetOp :=
  match alookup e.attrs k with
  | some v => (.ok v, e, [])
  | Option.none =>
    if !(declared e k) then (.error .attributeError, e, [])
    else if !e.lazy then (.error .attributeError, e, [])
    else if e.hasData then (.error .attributeError, e, [])
    else
      match fetchT srv e with
      | (.ok e1, t) =>
        match alookup e1.attrs k with
        | some v => (.ok v, e1, t)
        | Option.none => (.error .attributeError, e1, t)
      | (.error err, t) => (.error err, e, t)

/-- `ModelMixin.__init__(api_id, lazy, parse, kwargs)`: lazy instances
reject keyword values; `api_id` is stored; `_has_data = not lazy`; a
non-lazy instance defaults every declared field that is not already present
to `None`; finally the keyword values are absorbed. During construction
`__setattr__` never fetches (either the instance is not lazy, or it is lazy
and the keyword dictionary is empty), so the plain-write absorption is
faithful. -/
def mkEntity (endpoint : String) (schema : List (String × FieldDesc))
    (apiId : PyVal) (lazy : Bool) (kwargs : List (String × PyVal))
    (parse : Bool) : Except PyErr Entity :=
  if lazy && !kwargs.isEmpty then .error .valueError
  else
    let e0 : Entity := ⟨endpoint, schema, lazy, !lazy, [("api_id", apiId)]⟩
    let e1 := if lazy then e0
      else schema.foldl (fun acc nd =>
        if (alookup acc.attrs nd.1).isSome then acc
        else rawSet acc nd.1 PyVal.none) e0
    updateProps0 e1 kwargs parse

/-- `getattr(self, name, None)` as used by `to_json`: an `AttributeError`
(undeclared name, or a declared field still missing after the lazy fetch)
yields the default `None`; any other exception propagates. -/
def getattrDefaultT (srv : Server) (e : Entity) (k : String) :
    Except PyErr (PyVal × Entity) × List NetOp :=
  match getattrT srv e k with
  | (.ok v, e1, t) => (.ok (v, e1), t)
  | (.error .attributeError, e1, t) => (.ok (PyVal.none, e1), t)
  | (.error err, _, t) => (.error err, t)

/-- The dictionary comprehension inside `ModelMixin.to_json`: one
`(name, to_representation(getattr(self, name, None)))` item per field,
skipping derived fields unless requested, threading the entity state (a
lazy, unloaded receiver fetches at the first read). -/
def toJsonFields (srv : Server) (e : Entity) (includeDerived : Bool) :
    List (String × FieldDesc) →
    Except PyErr (List (String × PyVal) × Entity) × List NetOp
  | [] => (.ok ([], e), [])
  | nd :: rest =>
    if nd.2.derived && !includeDerived then
      toJsonFields srv e includeDerived rest
    else
      match getattrDefaultT srv e nd.1 with
      | (.ok (v, e1), t) =>
        match toJsonFields srv e1 includeDerived rest with
        | (.ok (l, e2), t2) =>
            (.ok ((nd.1, toRep nd.2.kind v) :: l, e2), t ++ t2)
        | (.error err, t2) => (.error err, t ++ t2)
      | (.error err, t) => (.error err, t)

/-- `ModelMixin.to_json(include_derived, include_none)`: serialize every
included field, then drop `None` values unless `include_none` holds. -/
def to_jsonT (srv : Server) (e : Entity) (incD incN : Bool) :
    Except PyErr (List (String × PyVal) × Entity) × List NetOp :=
  match toJsonFields srv e incD e.schema with
  | (.ok (l, e1), t) =>
      (.ok ((if incN then l else l.filter (fun kv => kv.2 != PyVal.none)), e1), t)
  | (.error err, t) => (.error err, t)

/-- `to_json` on an entity that already holds its data: no fetch can occur,
so the serialization is a pure function of the state. -/
def to_jsonPure (e : Entity) (incD incN : Bool) : List (String × PyVal) :=
  let l := e.schema.filterMap (fun nd =>
    if nd.2.derived && !incD then Option.none
    else some (nd.1, toRep nd.2.kind ((alookup e.attrs nd.1).getD PyVal.none)))
  if incN then l else l.filter (fun kv => kv.2 != PyVal.none)

/-- The comparison done by `ModelMixin.__eq__` after both wire
representations are computed: the key sets must coincide, and the values at
every key of the first representation whose descriptor is not a `Timestamp`
must agree. (Every key of a wire representation is a declared field, so the
missing-descriptor branch is unreachable; the source would raise `KeyError`
there.) -/
def eqCheck (a : Entity) (r1 r2 : List (String × PyVal)) : Bool :=
  if !((r1.map Prod.fst).all (fun k => (alookup r2 k).isSome) &&
       (r2.map Prod.fst).all (fun k => (alookup r1 k).isSome)) then false
  else r1.all (fun kv =>
    match alookup a.schema kv.1 with
    | some d =>
        if d.kind = FieldKind.timestamp then true
        else alookup r2 kv.1 == some kv.2
    | Option.none => true)

/-- `ModelMixin.__eq__`: serialize both sides with the default flags
(`include_derived=True`, `include_none=False`), then compare with
`eqCheck` (timestamp fields of `self` excluded from the value
comparison). -/
def entityEqT (srv : Server) (a b : Entity) :
    Except PyErr Bool × List NetOp :=
  match to_jsonT srv a true false with
  | (.error err, t) => (.error err, t)
  | (.ok (r1, a1), t) =>
    match to_jsonT srv b true false with
    | (.error err, t2) => (.error err, t ++ t2)
    | (.ok (r2, _), t2) => (.ok (eqCheck a1 r1 r2), t ++ t2)

/-- `ModelMixin.delete(**kwargs)`: `_check_api_id` first, then the
confirmation gate (`'delete' not in kwargs or not kwargs['delete']` raises
`RuntimeError`), and only then the remote DELETE. `del` is the transport's
response behaviour. The receiving entity is returned untouched: the method
reads but never writes local state. -/
def deleteT (del : String → PyVal → Except PyErr PyVal) (e : Entity)
    (kwargs : List (String × PyVal)) :
    Except PyErr PyVal × Entity × List NetOp :=
  if apiIdOf e = PyVal.none then (.error .runtimeError, e, [])
  else
    match alookup kwargs "delete" with
    | Option.none => (.error .runtimeError, e, [])
    | some v =>
      if !pyTruthy v then (.error .runtimeError, e, [])
      else (del e.endpoint (apiIdOf e), e, [NetOp.del e.endpoint (apiIdOf e)])

/-- `ModelMixin.create(update=False)` as invoked by
`LinkedEntityCollection.create`: an already-identified entity raises
`RuntimeError` before any request; otherwise the entity is serialized
(`include_derived=False`), POSTed, and the response absorbed through
`_update_properties`. `post` is the transport behaviour for POST requests.
(The `update=True` branch, which delegates to `save`, is not reachable from
the modelled call sites.) -/
def createT (srv : Server)
    (post : String → List (String × PyVal) → Except PyErr (List (String × PyVal)))
    (e : Entity) : Except PyErr Entity × List NetOp :=
  if apiIdOf e != PyVal.none then (.error .runtimeError, [])
  else
    match to_jsonT srv e false false with
    | (.error err, t) => (.error err, t)
    | (.ok (body, e1), t) =>
      match post e.endpoint body with
      | .error err => (.error err, t ++ [NetOp.post e.endpoint body])
      | .ok resp =>
        match updatePropsT srv e1 resp true with
        | (res, t2) => (res, t ++ [NetOp.post e.endpoint body] ++ t2)

/-- `LinkedEntityCollection`: the backing list, the read-only flag, and the
backlink configuration. The parent object referenced by the backlink is
abstracted to the stored value. -/
structure Coll where
  entities : List Entity
  readOnly : Bool
  backlinkProperty : Option String
  backlink : PyVal
deriving DecidableEq

/-- The generator `all(getattr(obj, name) == val for name, val in
kwargs.items())` inside `find`: short-circuits at the first mismatch,
threading the entity (a lazy entity fetches at its first read). -/
def checkCrit (srv : Server) :
    Entity → List (String × PyVal) → Except PyErr (Bool × Entity)
  | e, [] => .ok (true, e)
  | e, (k, v) :: rest =>
    match getattrT srv e k with
    | (.ok w, e1, _) => if w = v then checkCrit srv e1 rest else .ok (false, e1)
    | (.error err, _, _) => .error err

/-- The scan of `LinkedEntityCollection.find`: first entity matching every
criterion, else `None`. (In-place mutation of scanned entities is not
written back to the collection; no theorem below depends on it.) -/
def findGo (srv : Server) (criteria : List (String × PyVal)) :
    List Entity → Except PyErr (Option Entity)
  | [] => .ok Option.none
  | e :: rest => do
    let be ← checkCrit srv e criteria
    if be.1 then .ok (some be.2) else findGo srv criteria rest

/-- `LinkedEntityCollection.find(**kwargs)`. -/
def findT (srv : Server) (c : Coll) (criteria : List (String × PyVal)) :
    Except PyErr (Option Entity) :=
  findGo srv criteria c.entities

/-- `LinkedEntityCollection.create(new_obj)`: reject read-only collections,
set the backlink on the member if configured, persist it remotely with
`new_obj.create()`, and append it to the local list only after the remote
create returns. The resulting collection, the result (or exception), and
the network trace are returned. -/
def collCreateT (srv : Server)
    (post : String → List (String × PyVal) → Except PyErr (List (String × PyVal)))
    (c : Coll) (newObj : Entity) :
    Coll × Except PyErr Entity × List NetOp :=
  if c.readOnly then (c, .error .runtimeError, [])
  else
    match (match c.backlinkProperty with
           | Option.none => ((.ok newObj : Except PyErr Entity), ([] : List NetOp))
           | some p => setattrT srv newObj p c.backlink) with
    | (.error err, t) => (c, .error err, t)
    | (.ok o1, t) =>
      match createT srv post o1 with
      | (.error err, t2) => (c, .error err, t ++ t2)
      | (.ok o2, t2) =>
          ({ c with entities := c.entities ++ [o2] }, .ok o2, t ++ t2)

/-- The standard base-64 alphabet: sextet value to ASCII code. -/
def b64EncChar (n : Nat) : Nat :=
  if n < 26 then 65 + n
  else if n < 52 then 71 + n
  else if n < 62 then n - 4
  else if n = 62 then 43
  else 47

/-- Inverse of the base-64 alphabet: ASCII code to sextet value, `none`
outside the alphabet. -/
def b64DecChar (c : Nat) : Option Nat :=
  if c = 43 then some 62
  else if c = 47 then some 63
  else if 48 ≤ c ∧ c < 58 then some (c + 4)
  else if 65 ≤ c ∧ c < 91 then some (c - 65)
  else if 97 ≤ c ∧ c < 123 then some (c - 71)
  else Option.none

/-- `base64.b64encode` on a byte string (bytes as naturals below 256, the
output as ASCII codes, `=` padding included). -/
def b64encode : List Nat → List Nat
  | [] => []
  | [a] => [b64EncChar (a / 4), b64EncChar (a % 4 * 16), 61, 61]
  | [a, b] => [b64EncChar (a / 4), b64EncChar (a % 4 * 16 + b / 16),
               b64EncChar (b % 16 * 4), 61]
  | a :: b :: c :: rest =>
      b64EncChar (a / 4) :: b64EncChar (a % 4 * 16 + b / 16) ::
      b64EncChar (b % 16 * 4 + c / 64) :: b64EncChar (c % 64) :: b64encode rest

/-- `base64.b64decode` on ASCII codes: four-character groups with `=`
padding only in the final group; a wrong length or a character outside the
alphabet raises `binascii.Error`. (The non-alphabet skipping of
`validate=False` never matters on outputs of `b64encode`.) -/
def b64decode : List Nat → Except PyErr (List Nat)
  | [] => .ok []
  | c1 :: c2 :: c3 :: c4 :: rest =>
    if c3 = 61 ∧ c4 = 61 ∧ rest = [] then
      match b64DecChar c1, b64DecChar c2 with
      | some s1, some s2 => .ok [s1 * 4 + s2 / 16]
      | _, _ => .error .binasciiError
    else if c4 = 61 ∧ rest = [] then
      match b64DecChar c1, b64DecChar c2, b64DecChar c3 with
      | some s1, some s2, some s3 =>
          .ok [s1 * 4 + s2 / 16, s2 % 16 * 16 + s3 / 4]
      | _, _, _ => .error .binasciiError
    else
      match b64DecChar c1, b64DecChar c2, b64DecChar c3, b64DecChar c4 with
      | some s1, some s2, some s3, some s4 =>
        match b64decode rest with
        | .ok bs => .ok ([s1 * 4 + s2 / 16, s2 % 16 * 16 + s3 / 4,
                          s3 % 4 * 64 + s4] ++ bs)
        | .error e => .error e
      | _, _, _, _ => .error .binasciiError
  | _ => .error .binasciiError

/-- The string encoding used by the content setters
(`value.encode(self.encoding)` with the default `utf-8`). -/
def strBytes (s : String) : List Nat :=
  s.toUTF8.toList.map (fun b => b.toNat)

/-- The `Data` hierarchy: the base class and its specializations. -/
inductive DataClass where
  | base
  | image
  | code
  | text
  | table
deriving DecidableEq

/-- `DATA_TYPE` of each class (`None` on the base `Data`). -/
def dataTypeTag : DataClass → Option String
  | .base => Option.none
  | .image => some "image"
  | .code => some "code"
  | .text => some "text"
  | .table => some "dataframe"

/-- `Data.specialized_types()`: the type-tag-to-class map built by scanning
the module's globals for `Data` subclasses carrying a `DATA_TYPE`; `Data`
itself participates with tag `None`. The reflective scan is modelled by its
result. -/
def specializedTypes : List (Option String × DataClass) :=
  [(Option.none, .base), (some "image", .image), (some "code", .code),
   (some "text", .text), (some "dataframe", .table)]

/-- The `MetadataProxy` descriptors declared in each class's own `__dict__`
with their defaults: `ImageData.is_watermarked=False`, encodings default
`"utf-8"`, everything else `None`. -/
def classProxies : DataClass → List (String × PyVal)
  | .base => []
  | .image => [("is_watermarked", PyVal.bool false), ("format", PyVal.none)]
  | .code => [("language", PyVal.none), ("format", PyVal.none),
              ("encoding", PyVal.str "utf-8")]
  | .text => [("encoding", PyVal.str "utf-8")]
  | .table => [("format", PyVal.none), ("encoding", PyVal.str "utf-8")]

/-- The observable state of a `Data` instance: its class and the declared
`FIELDS` (`api_id`, `name`, `type`, `metadata`, `data`). The metadata
dictionary can be `None` when explicitly constructed so on a class without
proxies. -/
structure DataObj where
  cls : DataClass
  apiId : PyVal
  name : PyVal
  typ : Option String
  metadata : Option (List (String × PyVal))
  data : Option (List Nat)
deriving DecidableEq

/-- Keyword arguments of `Data.__init__`: each declared field either absent
or supplied (possibly `None`), plus keyword values routed to
`MetadataProxy` descriptors (`format=`, `is_watermarked=`, ...). -/
structure DataKwargs where
  apiId : Option PyVal
  name : Option PyVal
  typ : Option (Option String)
  metadata : Option (Option (List (String × PyVal)))
  data : Option (Option (List Nat))
  proxyArgs : List (String × PyVal)
deriving DecidableEq

/-- A `MetadataProxy` write: a `None` metadata dictionary is replaced by
`{}` first, then the entry is stored. -/
def setProxy (d : DataObj) (k : String) (v : PyVal) : DataObj :=
  { d with metadata := some (aset (d.metadata.getD []) k v) }

/-- One step of the keyword-assignment loop for a proxy-routed keyword: a
name that is a `MetadataProxy` of the class goes through the descriptor
(replacing a `None` metadata by `{}` first), anything else raises
`ValueError`. -/
def proxyAssign (cls : DataClass) (m : Option (List (String × PyVal)))
    (kv : String × PyVal) : Except PyErr (Option (List (String × PyVal))) :=
  if (alookup (classProxies cls) kv.1).isSome then
    .ok (some (aset (m.getD []) kv.1 kv.2))
  else .error .valueError

/-- One step of the trailing defaults loop: a proxy absent from the
metadata is written with its default; `name not in None` raises
`TypeError`. -/
def proxyDefault (m : Option (List (String × PyVal)))
    (pv : String × PyVal) : Except PyErr (Option (List (String × PyVal))) :=
  match m with
  | Option.none => .error .typeError
  | some mm =>
    if (alookup mm pv.1).isSome then .ok (some mm)
    else .ok (some (aset mm pv.1 pv.2))

/-- `Data.__init__(**kwargs)`: the payload must be bytes or `None`
(guaranteed by typing here); `type` is popped with default `DATA_TYPE`;
`metadata` is popped with default `{}`; the remaining keyword values are
assigned — declared fields directly, proxy names through the descriptor
into the metadata, any other name raising `ValueError` (class properties
such as `contents` are parameters of the specialized constructors and never
reach this loop); unassigned fields become `None`; finally every proxy of
the class missing from the metadata is written with its default, which
raises `TypeError` when the metadata was explicitly `None` and the class
declares proxies (`name not in None`). Keyword order is immaterial for
distinct names; proxy writes keep their given order. -/
def dataInit (cls : DataClass) (kw : DataKwargs) : Except PyErr DataObj := do
  let typ := match kw.typ with
             | some t => t
             | Option.none => dataTypeTag cls
  let md0 : Option (List (String × PyVal)) :=
    match kw.metadata with
    | some m => m
    | Option.none => some []
  let apiId := kw.apiId.getD PyVal.none
  let name := kw.name.getD PyVal.none
  let data := kw.data.getD Option.none
  let md1 ← kw.proxyArgs.foldlM (proxyAssign cls) md0
  let md2 ← (classProxies cls).foldlM proxyDefault md1
  .ok ⟨cls, apiId, name, typ, md2, data⟩

/-- `CodeData.__init__(contents, **kwargs)`: the base constructor, then the
contents (encoded to bytes) when given, then `self.format = "text"`
unconditionally. -/
def codeDataInit (contents : Option String) (kw : DataKwargs) :
    Except PyErr DataObj := do
  let d ← dataInit .code kw
  let d1 := match contents with
            | Option.none => d
            | some s => { d with data := some (strBytes s) }
  .ok (setProxy d1 "format" (PyVal.str "text"))

/-- `TextData.__init__(contents, **kwargs)`: the base constructor, then the
contents when given. -/
def textDataInit (contents : Option String) (kw : DataKwargs) :
    Except PyErr DataObj := do
  let d ← dataInit .text kw
  .ok (match contents with
       | Option.none => d
       | some s => { d with data := some (strBytes s) })

/-- `TableData.__init__(dataframe, **kwargs)`: the base constructor, then
`self.format = "pandas/csv"` unconditionally, then the dataframe (rendered
to CSV text by pandas — abstracted to the CSV text — and encoded to bytes)
when given. -/
def tableDataInit (dataframe : Option String) (kw : DataKwargs) :
    Except PyErr DataObj := do
  let d ← dataInit .table kw
  let d1 := setProxy d "format" (PyVal.str "pandas/csv")
  .ok (match dataframe with
       | Option.none => d1
       | some csv => { d1 with data := some (strBytes csv) })

/-- A JSON wire object as consumed by `Data.from_json`: the four plain
fields are read with `.get` (so an absent key and `null` coincide), while
the payload key is tested for presence (`'data' in data`) and holds either
`null` or base-64 text (as ASCII codes). -/
structure DataWire where
  apiId : PyVal
  name : PyVal
  typ : Option String
  metadata : Option (List (String × PyVal))
  dataKey : Option (Option (List Nat))
deriving DecidableEq

/-- `Data.to_json`: every field except the payload verbatim, plus the
payload base-64 encoded (`None` when absent); the `data` key is always
present in the output. -/
def dataToJson (d : DataObj) : DataWire :=
  ⟨d.apiId, d.name, d.typ, d.metadata, some (d.data.map b64encode)⟩

/-- The constructor invocation `chosen_class(**props)` performed by
`Data.from_json`: the specialized constructors run with their content
parameters defaulted to `None`. -/
def classInit (cls : DataClass) (kw : DataKwargs) : Except PyErr DataObj :=
  match cls with
  | .code => codeDataInit Option.none kw
  | .text => textDataInit Option.none kw
  | .table => tableDataInit Option.none kw
  | c => dataInit c kw

/-- `Data.from_json(data)` invoked on class `cls`: read the plain fields,
decode the payload when the key is present (a present `null` payload
raises `TypeError` inside `b64decode(None)`), choose the class by looking
the `type` tag up in the specialization table with fallback `cls`, and run
the chosen constructor on the properties. -/
def dataFromJson (cls : DataClass) (w : DataWire) : Except PyErr DataObj := do
  let payload ← match w.dataKey with
    | Option.none => (.ok Option.none : Except PyErr (Option (List Nat)))
    | some Option.none => .error .typeError
    | some (some txt) => (b64decode txt).map some
  let chosen := (alookup specializedTypes w.typ).getD cls
  classInit chosen ⟨some w.apiId, some w.name, some w.typ, some w.metadata,
                    some payload, []⟩

/-- In-memory values of a `NestedEntityField` over the `Data` hierarchy:
`None`, one nested object, or a sequence of them (the `tuple` produced for
read-only fields and the `list` otherwise are both sequences here). -/
inductive NestedVal where
  | none
  | one (d : DataObj)
  | many (l : List DataObj)
deriving DecidableEq

/-- Wire values of a `NestedEntityField`. -/
inductive NestedWire where
  | null
  | one (w : DataWire)
  | many (l : List DataWire)
deriving DecidableEq

/-- `NestedEntityField.to_representation`: `None` passes through, a
sequence maps `to_json` over its members, a single value is serialized
directly. -/
def nestedToRep : NestedVal → NestedWire
  | .none => .null
  | .one d => .one (dataToJson d)
  | .many l => .many (l.map dataToJson)

/-- `NestedEntityField.to_internal_value` (entity type `Data`): with
`many`, iterate the wire value and parse each member (`None` is not
iterable: `TypeError`; a dict would be iterated by key and each key string
passed to `from_json`, raising `AttributeError`); without `many`, parse the
wire value directly (`from_json` on `None` or on a list raises
`AttributeError` at the first `.get`). There is no `None` guard. -/
def nestedToInternal (manyFlag : Bool) (w : NestedWire) :
    Except PyErr NestedVal :=
  if manyFlag then
    match w with
    | .many l => (l.mapM (dataFromJson .base)).map NestedVal.many
    | .null => .error .typeError
    | .one _ => .error .attributeError
  else
    match w with
    | .one ww => (dataFromJson .base ww).map NestedVal.one
    | .null => .error .attributeError
    | .many _ => .error .attributeError

/-- In-memory values of a `LinkedEntityField`: `None`, one referenced
entity, or a collection of them. -/
inductive LinkedVal where
  | none
  | one (e : Entity)
  | many (l : List Entity)

/-- Wire values of a `LinkedEntityField`: one API id (or `null`), or a list
of them. -/
inductive LinkedWire where
  | single (v : PyVal)
  | many (l : List PyVal)
deriving DecidableEq

/-- `LinkedEntityField.to_representation` (no sort key configured): `None`
passes through, a collection maps to its members' `api_id`s, a single
entity to its `api_id`. -/
def linkedToRep : LinkedVal → LinkedWire
  | .none => .single PyVal.none
  | .one e => .single (apiIdOf e)
  | .many l => .many (l.map apiIdOf)

/-- The result of `LinkedEntityField.to_internal_value`: a single linked
entity or a `LinkedEntityCollection`. -/
inductive LinkedInternal where
  | one (e : Entity)
  | coll (c : Coll)

/-- `LinkedEntityField.to_internal_value` (not prefetched, no sort key):
every API id — including `None` — is wrapped in a fresh instance
`entity_type(gf)(api_id=api_id, lazy=self.lazy)`; with `many` the wrapped
entities form a `LinkedEntityCollection` with the field's read-only flag
and backlink configuration. -/
def linkedToInternal (endpoint : String) (schema : List (String × FieldDesc))
    (lazyFlag readOnly : Bool) (blp : Option String) (backlink : PyVal) :
    LinkedWire → Except PyErr LinkedInternal
  | .single v => (mkEntity endpoint schema v lazyFlag [] false).map .one
  | .many l => do
      let es ← l.mapM (fun v => mkEntity endpoint schema v lazyFlag [] false)
      .ok (.coll ⟨es, readOnly, blp, backlink⟩)

/-! ### Basic dictionary and state lemmas -/

@[simp]
theorem alookup_aset_self {κ α : Type} [DecidableEq κ]
    (l : List (κ × α)) (k : κ) (v : α) : alookup (aset l k v) k = some v := by
  induction l with
  | nil => simp [alookup, aset]
  | cons hd tl ih =>
    by_cases h : hd.1 = k
    · simp [aset, h, alookup]
    · simpa [aset, h, alookup] using ih

theorem alookup_aset_ne {κ α : Type} [DecidableEq κ]
    (l : List (κ × α)) (k k2 : κ) (v : α) (h : k2 ≠ k) :
    alookup (aset l k v) k2 = alookup l k2 := by
  have hks : ¬ k = k2 := fun hh => h hh.symm
  induction l with
  | nil => simp [alookup, aset, hks]
  | cons hd tl ih =>
    obtain ⟨k1, w⟩ := hd
    by_cases hh : k1 = k
    · subst hh
      simp [aset, alookup, hks]
    · simp [aset, alookup, hh, ih]

theorem aset_of_lookup_eq {κ α : Type} [DecidableEq κ]
    (l : List (κ × α)) (k : κ) (v : α) (h : alookup l k = some v) :
    aset l k v = l := by
  induction l with
  | nil => simp [alookup] at h
  | cons hd tl ih =>
    obtain ⟨k1, w⟩ := hd
    simp only [alookup] at h
    by_cases hh : k1 = k
    · rw [if_pos hh] at h
      injection h with h1
      simp only [aset]
      rw [if_pos hh]
      subst hh
      subst h1
      rfl
    · rw [if_neg hh] at h
      simp only [aset]
      rw [if_neg hh]
      rw [ih h]

@[simp]
theorem rawSet_schema (e : Entity) (k : String) (v : PyVal) :
    (rawSet e k v).schema = e.schema := rfl

@[simp]
theorem rawSet_hasData (e : Entity) (k : String) (v : PyVal) :
    (rawSet e k v).hasData = e.hasData := rfl

@[simp]
theorem rawSet_lazy (e : Entity) (k : String) (v : PyVal) :
    (rawSet e k v).lazy = e.lazy := rfl

@[simp]
theorem rawSet_endpoint (e : Entity) (k : String) (v : PyVal) :
    (rawSet e k v).endpoint = e.endpoint := rfl

/-- `_update_properties` with plain writes only touches the attribute
dictionary: endpoint, field table, `lazy` and `_has_data` are preserved. -/
theorem updateProps0_preserves (props : List (String × PyVal)) (e : Entity)
    (parse : Bool) (e2 : Entity) (h : updateProps0 e props parse = .ok e2) :
    e2.endpoint = e.endpoint ∧ e2.schema = e.schema ∧ e2.lazy = e.lazy ∧
    e2.hasData = e.hasData := by
  induction props generalizing e with
  | nil =>
    simp only [updateProps0, Except.ok.injEq] at h
    subst h
    exact ⟨rfl, rfl, rfl, rfl⟩
  | cons hd tl ih =>
    simp only [updateProps0] at h
    split at h
    · exact ih e h
    · split at h
      · exact absurd h (by simp)
      · have := ih _ h
        simpa using this

/-! ### Concrete sample objects used by witnesses and counterexamples -/

/-- A sample field table: the identifier, one plain field, one timestamp. -/
def schemaW : List (String × FieldDesc) :=
  [("api_id", ⟨.plain, false⟩), ("name", ⟨.plain, false⟩),
   ("created_on", ⟨.timestamp, false⟩)]

/-- A sample loaded (non-lazy) entity. -/
def entW : Entity :=
  ⟨"entity/", schemaW, false, true,
   [("api_id", PyVal.str "A"), ("name", PyVal.str "n"),
    ("created_on", PyVal.none)]⟩

/-- A sample server that stores one object under the sample endpoint. -/
def srvW : Server := fun ep id =>
  if ep = "entity/" ∧ id = PyVal.str "A" then
    .ok [("api_id", PyVal.str "A"), ("name", PyVal.str "server"),
         ("created_on", PyVal.str "2024-01-02 03:04:05")]
  else .error .httpError

/-- A sample DELETE transport. -/
def delW : String → PyVal → Except PyErr PyVal := fun _ _ => .ok PyVal.none

/-! ### Claim C9: `find` with no criteria -/

/-- C9: on every collection, `find()` with no criteria returns the first
entity when the collection is non-empty (every criterion is vacuously
satisfied) and `None` when it is empty. -/
theorem find_no_criteria (srv : Server) (c : Coll) :
    findT srv c [] = .ok c.entities.head? ∧
    (c.entities = [] → findT srv c [] = .ok Option.none) ∧
    (∀ e rest, c.entities = e :: rest → findT srv c [] = .ok (some e)) := by
  have key : ∀ l : List Entity, findGo srv [] l = .ok l.head? := by
    intro l
    cases l with
    | nil => simp [findGo]
    | cons e rest => rfl
  refine ⟨key c.entities, ?_, ?_⟩
  · intro h
    simp [findT, h, key]
  · intro e rest h
    simp [findT, h, key, findGo, checkCrit]

/-- Witness for C9 at a concrete singleton collection. -/
theorem find_no_criteria_witness :
    findT srvW ⟨[entW], false, Option.none, PyVal.none⟩ [] = .ok (some entW) := by
  exact (find_no_criteria srvW ⟨[entW], false, Option.none, PyVal.none⟩).2.2
    entW [] rfl

/-! ### Claim C6: the delete confirmation gate -/

/-- C6: `delete` without a truthy `delete=True` keyword raises and issues
no network request, leaving the entity untouched; with the confirmation it
issues exactly the remote DELETE for this entity. -/
theorem delete_confirmation_gate
    (del : String → PyVal → Except PyErr PyVal) (e : Entity)
    (kwargs : List (String × PyVal)) :
    ((alookup kwargs "delete" = Option.none ∨
      (∃ v, alookup kwargs "delete" = some v ∧ pyTruthy v = false)) →
        (deleteT del e kwargs).1 = .error .runtimeError ∧
        (deleteT del e kwargs).2.1 = e ∧ (deleteT del e kwargs).2.2 = []) ∧
    (∀ v, apiIdOf e ≠ PyVal.none → alookup kwargs "delete" = some v →
      pyTruthy v = true →
        (deleteT del e kwargs).1 = del e.endpoint (apiIdOf e) ∧
        (deleteT del e kwargs).2.1 = e ∧
        (deleteT del e kwargs).2.2 = [NetOp.del e.endpoint (apiIdOf e)]) := by
  constructor
  · intro h
    by_cases hid : apiIdOf e = PyVal.none
    · simp [deleteT, hid]
    · rcases h with h | ⟨v, hv, hf⟩
      · simp [deleteT, hid, h]
      · simp [deleteT, hid, hv, hf]
  · intro v hid hv ht
    simp [deleteT, hid, hv, ht]

/-- Witness for C6: a concrete entity, with and without the confirmation. -/
theorem delete_confirmation_gate_witness :
    (deleteT delW entW []).1 = .error .runtimeError ∧
    (deleteT delW entW [("delete", PyVal.bool true)]).2.2 =
      [NetOp.del "entity/" (PyVal.str "A")] := by
  constructor
  · exact ((delete_confirmation_gate delW entW []).1 (Or.inl rfl)).1
  · have h := ((delete_confirmation_gate delW entW
      [("delete", PyVal.bool true)]).2 (PyVal.bool true)
      (by decide) (by decide) (by decide)).2.2
    rw [h]
    rfl

/-! ### Claim C3: collection `create` is atomic on the local list -/

theorem exc_bind_ok {ε α β : Type} (a : α) (f : α → Except ε β) :
    (Except.ok a >>= f) = f a := rfl

theorem exc_bind_err {ε α β : Type} (err : ε) (f : α → Except ε β) :
    ((Except.error err : Except ε α) >>= f) = Except.error err := rfl

/-- C3: whenever `LinkedEntityCollection.create` ends in an exception —
in particular when the remote create raised — the collection is unchanged
(same length, same members) and the exception reaches the caller; the
member is appended exactly when the remote create succeeded. -/
theorem collection_create_atomic (srv : Server)
    (post : String → List (String × PyVal) → Except PyErr (List (String × PyVal)))
    (c : Coll) (newObj : Entity) (c2 : Coll) (res : Except PyErr Entity)
    (tr : List NetOp) (h : collCreateT srv post c newObj = (c2, res, tr)) :
    (∀ err, res = .error err → c2 = c) ∧
    (∀ o2, res = .ok o2 → c2.entities = c.entities ++ [o2]) := by
  unfold collCreateT at h
  by_cases hro : c.readOnly
  · rw [if_pos hro] at h
    simp only [Prod.mk.injEq] at h
    obtain ⟨rfl, rfl, rfl⟩ := h
    exact ⟨fun _ _ => rfl, fun o2 ho => by cases ho⟩
  · rw [if_neg hro] at h
    split at h
    · simp only [Prod.mk.injEq] at h
      obtain ⟨rfl, rfl, rfl⟩ := h
      exact ⟨fun _ _ => rfl, fun o2 ho => by cases ho⟩
    · split at h
      · simp only [Prod.mk.injEq] at h
        obtain ⟨rfl, rfl, rfl⟩ := h
        exact ⟨fun _ _ => rfl, fun o2 ho => by cases ho⟩
      · simp only [Prod.mk.injEq] at h
        obtain ⟨rfl, rfl, rfl⟩ := h
        refine ⟨fun err he => (by cases he), fun o2 ho => ?_⟩
        cases ho
        rfl

/-- A POST transport that always fails. -/
def postFail : String → List (String × PyVal) → Except PyErr (List (String × PyVal)) :=
  fun _ _ => .error .httpError

/-- A sample collection holding one entity. -/
def collW : Coll := ⟨[entW], false, Option.none, PyVal.none⟩

/-- A fresh, not yet persisted member (no API id). -/
def newW : Entity :=
  ⟨"entity/", schemaW, false, true,
   [("api_id", PyVal.none), ("name", PyVal.str "fresh"),
    ("created_on", PyVal.none)]⟩

/-- Witness for C3: with a failing POST, the error propagates and the
collection value is unchanged. -/
theorem collection_create_atomic_witness :
    (collCreateT srvW postFail collW newW).2.1 = .error .httpError ∧
    (collCreateT srvW postFail collW newW).1 = collW := by
  have h := collection_create_atomic srvW postFail collW newW
    (collCreateT srvW postFail collW newW).1
    (collCreateT srvW postFail collW newW).2.1
    (collCreateT srvW postFail collW newW).2.2 rfl
  exact ⟨rfl, h.1 .httpError rfl⟩

/-! ### Claim C7: unknown attribute reads and unknown field writes -/

/-- C7 (amended): reading an undeclared attribute raises `AttributeError`
with no network traffic; but writing an unknown field does not raise:
`_update_properties` silently skips unknown names (the `raise ValueError`
is commented out in the source), and a direct attribute assignment of an
undeclared name is a plain store. -/
theorem unknown_attribute_behaviour (srv : Server) (e : Entity) (k : String)
    (v : PyVal) :
    (declared e k = false → alookup e.attrs k = Option.none →
        getattrT srv e k = (.error .attributeError, e, [])) ∧
    (declared e k = false → updatePropsT srv e [(k, v)] true = (.ok e, [])) ∧
    (declared e k = false → setattrT srv e k v = (.ok (rawSet e k v), [])) := by
  refine ⟨fun hd ha => ?_, fun hd => ?_, fun hd => ?_⟩
  · simp [getattrT, ha, hd]
  · have hl : alookup e.schema k = Option.none := by
      unfold declared at hd
      cases hl : alookup e.schema k
      · rfl
      · rw [hl] at hd
        simp at hd
    simp [updatePropsT, hl]
  · have hdf : doFetchCond e k = false := by simp [doFetchCond, hd]
    simp [setattrT, hdf]

/-- Counterexample for C7 as stated: populating a concrete entity's
properties with an unknown field name `"bogus"` succeeds silently (no
validation error is raised and the entity is unchanged), contradicting the
claim that it raises immediately. -/
theorem unknown_field_write_counterexample :
    updatePropsT srvW entW [("bogus", PyVal.int 1)] true = (.ok entW, []) := by
  rfl

/-- Witness for C7 (amended) at a concrete entity. -/
theorem unknown_attribute_behaviour_witness :
    getattrT srvW entW "bogus" = (.error .attributeError, entW, []) ∧
    setattrT srvW entW "bogus" (PyVal.int 1) =
      (.ok (rawSet entW "bogus" (PyVal.int 1)), []) := by
  have h := unknown_attribute_behaviour srvW entW "bogus" (PyVal.int 1)
  exact ⟨h.1 rfl rfl, h.2.2 rfl⟩

/-! ### Claim C10: `CodeData` and `TableData` force their format -/

/-- C10: a successful `CodeData` construction always ends with metadata
`format = "text"`, and a successful `TableData` construction always ends
with `format = "pandas/csv"`, whatever format the caller supplied in the
metadata dictionary or as a keyword. -/
theorem data_format_override :
    (∀ contents kw d, codeDataInit contents kw = .ok d →
        ∃ m, d.metadata = some m ∧
          alookup m "format" = some (PyVal.str "text")) ∧
    (∀ dataframe kw d, tableDataInit dataframe kw = .ok d →
        ∃ m, d.metadata = some m ∧
          alookup m "format" = some (PyVal.str "pandas/csv")) := by
  constructor
  · intro contents kw d h
    unfold codeDataInit at h
    rcases hinit : dataInit .code kw with err | d0
    · rw [hinit, exc_bind_err] at h
      cases h
    · rw [hinit, exc_bind_ok] at h
      injection h with h1
      subst h1
      exact ⟨_, rfl, alookup_aset_self _ _ _⟩
  · intro dataframe kw d h
    unfold tableDataInit at h
    rcases hinit : dataInit .table kw with err | d0
    · rw [hinit, exc_bind_err] at h
      cases h
    · rw [hinit, exc_bind_ok] at h
      injection h with h1
      subst h1
      cases dataframe
      · exact ⟨_, rfl, alookup_aset_self _ _ _⟩
      · exact ⟨_, rfl, alookup_aset_self _ _ _⟩

/-- Keyword arguments carrying a caller-supplied format both inside the
metadata dictionary and as a keyword value. -/
def kwFmt : DataKwargs :=
  ⟨Option.none, Option.none, Option.none,
   some (some [("format", PyVal.str "eps")]), Option.none,
   [("format", PyVal.str "png")]⟩

/-- Witness for C10: the caller-supplied formats `"eps"` and `"png"` are
overridden to `"text"` on a concrete `CodeData` construction. -/
theorem data_format_override_witness :
    ∃ m, (⟨.code, PyVal.none, PyVal.none, some "code",
           some [("format", PyVal.str "text"), ("language", PyVal.none),
                 ("encoding", PyVal.str "utf-8")], Option.none⟩ : DataObj).metadata
          = some m ∧
      alookup m "format" = some (PyVal.str "text") := by
  exact data_format_override.1 Option.none kwFmt _ rfl

/-! ### Claims C1 and C2: lazy fetch ordering -/

/-- Anatomy of a successful `fetch()`: the API id was present, exactly one
GET was issued, the result has its data loaded, and everything except the
attribute dictionary is preserved. -/
theorem fetchT_ok_elim (srv : Server) (e e1 : Entity) (t : List NetOp)
    (hf : fetchT srv e = (.ok e1, t)) :
    e1.hasData = true ∧ e1.schema = e.schema ∧ e1.lazy = e.lazy ∧
    e1.endpoint = e.endpoint ∧ t = [NetOp.get e.endpoint (apiIdOf e)] ∧
    apiIdOf e ≠ PyVal.none ∧
    ∃ body, srv e.endpoint (apiIdOf e) = .ok body ∧
      updateProps0 { e with hasData := true } body true = .ok e1 := by
  unfold fetchT at hf
  by_cases hid : apiIdOf e = PyVal.none
  · rw [if_pos hid] at hf
    simp at hf
  · rw [if_neg hid] at hf
    rcases hs : srv e.endpoint (apiIdOf e) with err | body
    · rw [hs] at hf
      simp at hf
    · rw [hs] at hf
      simp only [Prod.mk.injEq] at hf
      obtain ⟨h1, rfl⟩ := hf
      have hp := updateProps0_preserves _ _ _ _ h1
      exact ⟨by rw [hp.2.2.2], hp.2.1, hp.2.2.1, hp.1, rfl, hid,
             body, rfl, h1⟩

/-- C1: writing any declared field other than the identifier on a lazy,
unloaded entity performs the fetch strictly first (one GET), applies the
write on top of the fetched state, and the written value survives the
absorption of the server data; fields other than the written one keep the
fetched values. -/
theorem write_before_load (srv : Server) (e : Entity) (k : String)
    (v : PyVal) (e1 : Entity) (t : List NetOp)
    (hlazy : e.lazy = true) (hnd : e.hasData = false)
    (hdecl : declared e k = true) (hk : k ≠ "api_id")
    (hf : fetchT srv e = (.ok e1, t)) :
    setattrT srv e k v = (.ok (rawSet e1 k v), t) ∧
    alookup (rawSet e1 k v).attrs k = some v ∧
    (rawSet e1 k v).hasData = true ∧
    t = [NetOp.get e.endpoint (apiIdOf e)] ∧
    (∀ j, j ≠ k → alookup (rawSet e1 k v).attrs j = alookup e1.attrs j) := by
  have he := fetchT_ok_elim srv e e1 t hf
  have hdf : doFetchCond e k = true := by
    simp [doFetchCond, hdecl, hlazy, hnd, bne_iff_ne, hk]
  refine ⟨?_, alookup_aset_self _ _ _, ?_, he.2.2.2.2.1, ?_⟩
  · simp [setattrT, hdf, hf]
  · simp [he.1]
  · intro j hj
    exact alookup_aset_ne _ _ _ _ hj

/-- A lazy entity constructed with only its identifier. -/
def entL : Entity := ⟨"entity/", schemaW, true, false, [("api_id", PyVal.str "A")]⟩

/-- The state of `entL` after its one fetch against `srvW`. -/
def entL1 : Entity :=
  ⟨"entity/", schemaW, true, true,
   [("api_id", PyVal.str "A"), ("name", PyVal.str "server"),
    ("created_on", PyVal.time ⟨"2024-01-02 03:04:05"⟩)]⟩

/-- Witness for C1: a concrete write to `name` on the lazy `entL` fetches
first and the written value survives. -/
theorem write_before_load_witness :
    setattrT srvW entL "name" (PyVal.str "mine") =
      (.ok (rawSet entL1 "name" (PyVal.str "mine")),
       [NetOp.get "entity/" (PyVal.str "A")]) ∧
    alookup (rawSet entL1 "name" (PyVal.str "mine")).attrs "name" =
      some (PyVal.str "mine") := by
  have h := write_before_load srvW entL "name" (PyVal.str "mine") entL1
    [NetOp.get "entity/" (PyVal.str "A")] rfl rfl rfl (by decide) rfl
  exact ⟨h.1, h.2.1⟩

/-- C2 (amended): on a lazy, unloaded entity the first read of a declared
field other than the identifier performs exactly one GET before the value
is returned; a field already present in the instance dictionary (in
particular the identifier) reads with zero requests; and once data is
loaded no read ever issues a request. -/
theorem lazy_fetch_once_amended (srv : Server) (e : Entity) (k : String)
    (e1 : Entity) (t : List NetOp) :
    (e.lazy = true → e.hasData = false → declared e k = true →
      alookup e.attrs k = Option.none → fetchT srv e = (.ok e1, t) →
      ∀ w, alookup e1.attrs k = some w →
        getattrT srv e k = (.ok w, e1, t) ∧
        t = [NetOp.get e.endpoint (apiIdOf e)]) ∧
    (∀ a, alookup e.attrs "api_id" = some a →
        getattrT srv e "api_id" = (.ok a, e, [])) ∧
    (e.hasData = true → (getattrT srv e k).2.2 = []) := by
  refine ⟨fun hlazy hnd hdecl ha hf w hw => ?_, fun a ha => ?_, fun hhd => ?_⟩
  · have he := fetchT_ok_elim srv e e1 t hf
    constructor
    · simp [getattrT, ha, hdecl, hlazy, hnd, hf, hw]
    · exact he.2.2.2.2.1
  · simp [getattrT, ha]
  · unfold getattrT
    cases hl : alookup e.attrs k
    · by_cases hdc : declared e k
      · by_cases hlz : e.lazy <;> simp [hdc, hlz, hhd]
      · simp [hdc]
    · simp

/-- Counterexample for C2 as stated: `entL` is constructed lazily with only
its identifier, `api_id` is a declared field, yet its first read issues
zero GET requests rather than exactly one. -/
theorem lazy_fetch_once_counterexample :
    mkEntity "entity/" schemaW (PyVal.str "A") true [] false = .ok entL ∧
    declared entL "api_id" = true ∧
    getattrT srvW entL "api_id" = (.ok (PyVal.str "A"), entL, []) := by
  exact ⟨rfl, rfl, rfl⟩

/-- Witness for C2 (amended): the first read of `name` on `entL` issues
exactly one GET, and a later read on the loaded state issues none. -/
theorem lazy_fetch_once_amended_witness :
    getattrT srvW entL "name" =
      (.ok (PyVal.str "server"), entL1, [NetOp.get "entity/" (PyVal.str "A")]) ∧
    (getattrT srvW entL1 "created_on").2.2 = [] := by
  constructor
  · exact ((lazy_fetch_once_amended srvW entL "name" entL1
      [NetOp.get "entity/" (PyVal.str "A")]).1 rfl rfl rfl rfl rfl
      (PyVal.str "server") rfl).1
  · exact (lazy_fetch_once_amended srvW entL1 "created_on" entL1 []).2.2 rfl

/-! ### Claim C5: equality ignores timestamps (characterization) -/

/-- A read on an entity that already holds its data is pure: the instance
dictionary answers, or `AttributeError` is raised; no request is issued. -/
theorem getattrT_of_hasData (srv : Server) (e : Entity) (k : String)
    (h : e.hasData = true) :
    getattrT srv e k = ((match alookup e.attrs k with
      | some v => .ok v
      | Option.none => .error .attributeError), e, []) := by
  unfold getattrT
  cases hl : alookup e.attrs k
  · by_cases hdc : declared e k
    · by_cases hlz : e.lazy <;> simp [hdc, hlz, h]
    · simp [hdc]
  · simp

theorem getattrDefaultT_of_hasData (srv : Server) (e : Entity) (k : String)
    (h : e.hasData = true) :
    getattrDefaultT srv e k =
      (.ok ((alookup e.attrs k).getD PyVal.none, e), []) := by
  unfold getattrDefaultT
  rw [getattrT_of_hasData srv e k h]
  cases hl : alookup e.attrs k <;> simp [hl]

theorem toJsonFields_of_hasData (srv : Server) (e : Entity) (incD : Bool)
    (h : e.hasData = true) (fl : List (String × FieldDesc)) :
    toJsonFields srv e incD fl =
      (.ok (fl.filterMap (fun nd =>
        if nd.2.derived && !incD then Option.none
        else some (nd.1,
          toRep nd.2.kind ((alookup e.attrs nd.1).getD PyVal.none))), e),
       []) := by
  induction fl with
  | nil => simp [toJsonFields]
  | cons nd rest ih =>
    by_cases hd : (nd.2.derived && !incD) = true
    · simp only [toJsonFields, if_pos hd, List.filterMap_cons, hd]
      exact ih
    · simp [toJsonFields, hd, getattrDefaultT_of_hasData srv e nd.1 h, ih]
      rw [List.filterMap_cons, if_neg (by simpa using hd)]

/-- `to_json` on a loaded entity equals the pure serialization, with no
network traffic and no state change. -/
theorem to_jsonT_of_hasData (srv : Server) (e : Entity) (incD incN : Bool)
    (h : e.hasData = true) :
    to_jsonT srv e incD incN = (.ok (to_jsonPure e incD incN, e), []) := by
  unfold to_jsonT to_jsonPure
  rw [toJsonFields_of_hasData srv e incD h e.schema]

/-- `__eq__` on two loaded entities reduces to the pure comparison. -/
theorem entityEqT_of_hasData (srv : Server) (a b : Entity)
    (ha : a.hasData = true) (hb : b.hasData = true) :
    entityEqT srv a b =
      (.ok (eqCheck a (to_jsonPure a true false) (to_jsonPure b true false)),
       []) := by
  unfold entityEqT
  rw [to_jsonT_of_hasData srv a true false ha,
      to_jsonT_of_hasData srv b true false hb]
  rfl

/-- The keys at which `__eq__` compares values: declared with a
non-timestamp descriptor. -/
def isNonTsKey (a : Entity) (k : String) : Bool :=
  match alookup a.schema k with
  | some d => d.kind != FieldKind.timestamp
  | Option.none => false

/-- Modelled from the spec's words (the claim as stated): the
"non-timestamp wire representation" of an entity — its wire representation
restricted to the keys whose descriptor is not a timestamp. -/
def specNonTsRepr (e : Entity) : List (String × PyVal) :=
  (to_jsonPure e true false).filter (fun kv => isNonTsKey e kv.1)

/-- Modelled from the spec's words, amended per the counterexample: two
loaded entities compare equal exactly when their wire representations have
identical key sets and agree at every non-timestamp key. -/
def specEqAmended (a b : Entity) : Prop :=
  (∀ k ∈ (to_jsonPure a true false).map Prod.fst,
      (alookup (to_jsonPure b true false) k).isSome = true) ∧
  (∀ k ∈ (to_jsonPure b true false).map Prod.fst,
      (alookup (to_jsonPure a true false) k).isSome = true) ∧
  (∀ kv ∈ to_jsonPure a true false, isNonTsKey a kv.1 = true →
      alookup (to_jsonPure b true false) kv.1 = some kv.2)

theorem eqCheck_iff (a b : Entity) :
    eqCheck a (to_jsonPure a true false) (to_jsonPure b true false) = true ↔
      specEqAmended a b := by
  unfold eqCheck specEqAmended
  set r1 := to_jsonPure a true false with hr1
  set r2 := to_jsonPure b true false with hr2
  by_cases hAB : ((r1.map Prod.fst).all (fun k => (alookup r2 k).isSome) &&
                  (r2.map Prod.fst).all (fun k => (alookup r1 k).isSome)) = true
  · rw [if_neg (by simp [hAB])]
    rw [Bool.and_eq_true] at hAB
    obtain ⟨hA, hB⟩ := hAB
    constructor
    · intro hC
      refine ⟨List.all_eq_true.mp hA, List.all_eq_true.mp hB, ?_⟩
      intro kv hkv hnts
      have hthis := List.all_eq_true.mp hC kv hkv
      unfold isNonTsKey at hnts
      cases hl : alookup a.schema kv.1 with
      | none =>
        rw [hl] at hnts
        cases hnts
      | some d =>
        rw [hl] at hnts hthis
        simp only at hthis
        rw [if_neg (bne_iff_ne.mp hnts)] at hthis
        exact eq_of_beq hthis
    · rintro ⟨h1, h2, h3⟩
      refine List.all_eq_true.mpr ?_
      intro kv hkv
      cases hl : alookup a.schema kv.1 with
      | none => simp [hl]
      | some d =>
        simp only [hl]
        by_cases hts : d.kind = FieldKind.timestamp
        · simp [hts]
        · rw [if_neg hts]
          refine beq_iff_eq.mpr (h3 kv hkv ?_)
          unfold isNonTsKey
          rw [hl]
          exact bne_iff_ne.mpr hts
  · rw [Bool.not_eq_true] at hAB
    rw [if_pos (by rw [hAB]; rfl)]
    constructor
    · intro h
      cases h
    · rintro ⟨h1, h2, h3⟩
      exfalso
      have hT : ((r1.map Prod.fst).all (fun k => (alookup r2 k).isSome) &&
                 (r2.map Prod.fst).all (fun k => (alookup r1 k).isSome)) = true := by
        rw [Bool.and_eq_true]
        exact ⟨List.all_eq_true.mpr h1, List.all_eq_true.mpr h2⟩
      rw [hT] at hAB
      cases hAB

/-- C5 (amended): on loaded entities, `__eq__` returns true exactly when
the two wire representations have the same key set and agree at every
non-timestamp key. (Timestamps present on both sides are ignored whatever
their values; but a timestamp present on one side and `None` on the other
changes the key set and breaks equality.) -/
theorem entity_eq_characterization (srv : Server) (a b : Entity)
    (ha : a.hasData = true) (hb : b.hasData = true) :
    entityEqT srv a b = (.ok true, []) ↔ specEqAmended a b := by
  rw [entityEqT_of_hasData srv a b ha hb]
  rw [← eqCheck_iff a b]
  constructor
  · intro h
    simpa using h
  · intro h
    simp [h]

/-- `entW` with its `created_on` timestamp populated. -/
def entTs : Entity :=
  ⟨"entity/", schemaW, false, true,
   [("api_id", PyVal.str "A"), ("name", PyVal.str "n"),
    ("created_on", PyVal.time ⟨"2024-01-02 03:04:05"⟩)]⟩

/-- `entTs` with a different `created_on` timestamp. -/
def entTs2 : Entity :=
  ⟨"entity/", schemaW, false, true,
   [("api_id", PyVal.str "A"), ("name", PyVal.str "n"),
    ("created_on", PyVal.time ⟨"2025-06-07 08:09:10"⟩)]⟩

/-- Counterexample for C5 as stated: `entW` (timestamp `None`) and `entTs`
(timestamp set) have identical non-timestamp wire representations — and
identical values in all non-timestamp fields with different `created_on`
values — yet `__eq__` returns `False`, because the `None` timestamp is
dropped from the wire key set. -/
theorem eq_ignores_timestamps_counterexample :
    specNonTsRepr entW = specNonTsRepr entTs ∧
    entityEqT srvW entW entTs = (.ok false, []) := by
  constructor <;> rfl

/-- Witness for C5 (amended): two concrete entities differing only in their
(non-`None`) timestamps compare equal. -/
theorem entity_eq_characterization_witness :
    entityEqT srvW entTs entTs2 = (.ok true, []) := by
  refine (entity_eq_characterization srvW entTs entTs2 rfl rfl).mpr
    ⟨by decide, by decide, by decide⟩

/-! ### Claim C8: `from_json` dispatch on the type tag -/

/-- Every constructor in the `Data` hierarchy stamps the class it was
invoked on. -/
theorem dataInit_cls (cls : DataClass) (kw : DataKwargs) (d : DataObj)
    (h : dataInit cls kw = .ok d) : d.cls = cls := by
  simp only [dataInit, bind, Except.bind] at h
  split at h
  · cases h
  · split at h
    · cases h
    · injection h with h1
      subst h1
      rfl

theorem classInit_cls (cls : DataClass) (kw : DataKwargs) (d : DataObj)
    (h : classInit cls kw = .ok d) : d.cls = cls := by
  cases cls
  case code =>
    simp only [classInit, codeDataInit, bind, Except.bind] at h
    split at h
    · cases h
    case _ d0 h0 =>
      injection h with h1
      subst h1
      simpa [setProxy] using dataInit_cls _ _ _ h0
  case text =>
    simp only [classInit, textDataInit, bind, Except.bind] at h
    split at h
    · cases h
    case _ d0 h0 =>
      injection h with h1
      subst h1
      exact dataInit_cls _ _ _ h0
  case table =>
    simp only [classInit, tableDataInit, bind, Except.bind] at h
    split at h
    · cases h
    case _ d0 h0 =>
      injection h with h1
      subst h1
      simpa [setProxy] using dataInit_cls _ _ _ h0
  case base => exact dataInit_cls _ _ _ h
  case image => exact dataInit_cls _ _ _ h

/-- C8: parsing a `Data` wire object dispatches on the `type` tag through
the table built from all known specializations, and an unknown tag falls
back to constructing the base `Data` representation instead of failing. -/
theorem data_from_json_dispatch (w : DataWire) :
    (∀ d, dataFromJson .base w = .ok d →
        d.cls = (alookup specializedTypes w.typ).getD .base) ∧
    (∀ t, w.typ = some t → t ≠ "image" → t ≠ "code" → t ≠ "text" →
        t ≠ "dataframe" →
        ∀ d, dataFromJson .base w = .ok d → d.cls = .base) := by
  have main : ∀ d, dataFromJson .base w = .ok d →
      d.cls = (alookup specializedTypes w.typ).getD .base := by
    intro d h
    rcases hdk : w.dataKey with _ | ⟨_ | txt⟩
    · simp only [dataFromJson, hdk, exc_bind_ok] at h
      exact classInit_cls _ _ _ h
    · simp only [dataFromJson, hdk, exc_bind_err] at h
      cases h
    · rcases hb : b64decode txt with err | bsd
      · simp only [dataFromJson, hdk, hb, Except.map, exc_bind_err] at h
        cases h
      · simp only [dataFromJson, hdk, hb, Except.map, exc_bind_ok] at h
        exact classInit_cls _ _ _ h
  refine ⟨main, fun t ht h1 h2 h3 h4 d h => ?_⟩
  have h1s : ¬ ("image" = t) := fun hh => h1 hh.symm
  have h2s : ¬ ("code" = t) := fun hh => h2 hh.symm
  have h3s : ¬ ("text" = t) := fun hh => h3 hh.symm
  have h4s : ¬ ("dataframe" = t) := fun hh => h4 hh.symm
  have hlk : alookup specializedTypes w.typ = Option.none := by
    rw [ht]
    simp [specializedTypes, alookup, h1s, h2s, h3s, h4s]
  rw [main d h, hlk]
  rfl

/-- A wire object with an unknown type tag. -/
def wUnknown : DataWire :=
  ⟨PyVal.none, PyVal.none, some "video", some [],
   some (some (b64encode [1, 2]))⟩

/-- Witness for C8: the unknown tag `"video"` parses successfully into a
base `Data` object. -/
theorem data_from_json_dispatch_witness :
    dataFromJson .base wUnknown =
      .ok ⟨.base, PyVal.none, PyVal.none, some "video", some [], some [1, 2]⟩ ∧
    (⟨.base, PyVal.none, PyVal.none, some "video", some [], some [1, 2]⟩
        : DataObj).cls = .base := by
  constructor
  · rfl
  · exact (data_from_json_dispatch wUnknown).2 "video" rfl (by decide)
      (by decide) (by decide) (by decide) _ rfl

/-! ### Claim C4: field descriptor round trips -/

theorem b64DecChar_encChar (n : Nat) (h : n < 64) :
    b64DecChar (b64EncChar n) = some n := by
  have : ∀ m : Fin 64, b64DecChar (b64EncChar m.val) = some m.val := by decide
  exact this ⟨n, h⟩

theorem b64EncChar_ne_pad (n : Nat) (h : n < 64) : b64EncChar n ≠ 61 := by
  have : ∀ m : Fin 64, b64EncChar m.val ≠ 61 := by decide
  exact this ⟨n, h⟩

/-- Decoding inverts encoding on every byte string. -/
theorem b64_roundtrip (bs : List Nat) (hb : ∀ x ∈ bs, x < 256) :
    b64decode (b64encode bs) = .ok bs := by
  induction bs using b64encode.induct with
  | case1 => rfl
  | case2 a =>
    have ha : a < 256 := hb a (by simp)
    have h1 : a / 4 < 64 := by omega
    have h2 : a % 4 * 16 < 64 := by omega
    simp only [b64encode, b64decode]
    rw [if_pos (by simp), b64DecChar_encChar _ h1, b64DecChar_encChar _ h2]
    show Except.ok [a / 4 * 4 + a % 4 * 16 / 16] = Except.ok [a]
    have : a / 4 * 4 + a % 4 * 16 / 16 = a := by omega
    rw [this]
  | case3 a b =>
    have ha : a < 256 := hb a (by simp)
    have hbb : b < 256 := hb b (by simp)
    have h1 : a / 4 < 64 := by omega
    have h2 : a % 4 * 16 + b / 16 < 64 := by omega
    have h3 : b % 16 * 4 < 64 := by omega
    simp only [b64encode, b64decode]
    rw [if_neg (by simp [b64EncChar_ne_pad _ h3]), if_pos (by simp),
        b64DecChar_encChar _ h1, b64DecChar_encChar _ h2,
        b64DecChar_encChar _ h3]
    show Except.ok [a / 4 * 4 + (a % 4 * 16 + b / 16) / 16,
      (a % 4 * 16 + b / 16) % 16 * 16 + b % 16 * 4 / 4] = Except.ok [a, b]
    have e1 : a / 4 * 4 + (a % 4 * 16 + b / 16) / 16 = a := by omega
    have e2 : (a % 4 * 16 + b / 16) % 16 * 16 + b % 16 * 4 / 4 = b := by omega
    rw [e1, e2]
  | case4 a b c rest ih =>
    have ha : a < 256 := hb a (by simp)
    have hbb : b < 256 := hb b (by simp)
    have hc : c < 256 := hb c (by simp)
    have hrest : ∀ x ∈ rest, x < 256 := fun x hx => hb x (by simp [hx])
    have h1 : a / 4 < 64 := by omega
    have h2 : a % 4 * 16 + b / 16 < 64 := by omega
    have h3 : b % 16 * 4 + c / 64 < 64 := by omega
    have h4 : c % 64 < 64 := by omega
    simp only [b64encode, b64decode]
    rw [if_neg (by simp [b64EncChar_ne_pad _ h3]),
        if_neg (by simp [b64EncChar_ne_pad _ h4]),
        b64DecChar_encChar _ h1, b64DecChar_encChar _ h2,
        b64DecChar_encChar _ h3, b64DecChar_encChar _ h4,
        ih hrest]
    show Except.ok ([a / 4 * 4 + (a % 4 * 16 + b / 16) / 16,
      (a % 4 * 16 + b / 16) % 16 * 16 + (b % 16 * 4 + c / 64) / 4,
      (b % 16 * 4 + c / 64) % 4 * 64 + c % 64] ++ rest) =
      Except.ok (a :: b :: c :: rest)
    have e1 : a / 4 * 4 + (a % 4 * 16 + b / 16) / 16 = a := by omega
    have e2 : (a % 4 * 16 + b / 16) % 16 * 16 + (b % 16 * 4 + c / 64) / 4 = b := by
      omega
    have e3 : (b % 16 * 4 + c / 64) % 4 * 64 + c % 64 = c := by omega
    rw [e1, e2, e3]
    rfl

/-- The tag of each class looks itself up in the specialization table. -/
theorem lookup_tag (cls : DataClass) :
    alookup specializedTypes (dataTypeTag cls) = some cls := by
  cases cls <;> rfl

/-- The trailing defaults loop leaves a metadata dictionary that already
contains every proxy of the class untouched. -/
theorem proxyDefault_fold (ps : List (String × PyVal))
    (m : List (String × PyVal))
    (h : ∀ pv ∈ ps, (alookup m pv.1).isSome = true) :
    ps.foldlM proxyDefault (some m) = .ok (some m) := by
  induction ps with
  | nil => rfl
  | cons pv tl ih =>
    rw [List.foldlM_cons]
    have hh : proxyDefault (some m) pv = .ok (some m) := by
      show (if (alookup m pv.1).isSome = true then Except.ok (some m)
            else Except.ok (some (aset m pv.1 pv.2))) = Except.ok (some m)
      rw [if_pos (h pv (by simp))]
    rw [hh, exc_bind_ok]
    exact ih (fun p hp => h p (by simp [hp]))

/-- `Data.__init__` on exactly the properties produced by `from_json`
(every field passed, no proxy keywords) reconstructs the stored fields,
provided the metadata already carries every proxy of the class. -/
theorem dataInit_reconstruct (cls : DataClass) (A N : PyVal)
    (T : Option String) (m : List (String × PyVal)) (bs : Option (List Nat))
    (hpx : ∀ pv ∈ classProxies cls, (alookup m pv.1).isSome = true) :
    dataInit cls ⟨some A, some N, some T, some (some m), some bs, []⟩ =
      .ok ⟨cls, A, N, T, some m, bs⟩ := by
  have hfold := proxyDefault_fold (classProxies cls) m hpx
  calc dataInit cls ⟨some A, some N, some T, some (some m), some bs, []⟩
      = ((classProxies cls).foldlM proxyDefault (some m) >>= fun md2 =>
          Except.ok (⟨cls, A, N, T, md2, bs⟩ : DataObj)) := rfl
    _ = .ok ⟨cls, A, N, T, some m, bs⟩ := by rw [hfold, exc_bind_ok]

/-- Well-formed `Data` objects: the type tag matches the class, the payload
is a genuine byte string, and the metadata is a dictionary that carries
every proxy of the class, with the formats the specialized constructors
force. Objects produced by the constructors from byte payloads satisfy all
of this. -/
def WFData (d : DataObj) : Prop :=
  d.typ = dataTypeTag d.cls ∧
  (∃ bs, d.data = some bs ∧ ∀ x ∈ bs, x < 256) ∧
  (∃ m, d.metadata = some m ∧
    (∀ pv ∈ classProxies d.cls, (alookup m pv.1).isSome = true) ∧
    (d.cls = .code → alookup m "format" = some (PyVal.str "text")) ∧
    (d.cls = .table → alookup m "format" = some (PyVal.str "pandas/csv")))

/-- `from_json` inverts `to_json` on well-formed `Data` objects. -/
theorem dataFromJson_toJson (d : DataObj) (h : WFData d) :
    dataFromJson .base (dataToJson d) = .ok d := by
  obtain ⟨cls, A, N, T, md, dt⟩ := d
  obtain ⟨htyp, ⟨bs, hbs, hlt⟩, ⟨m, hm, hpx, hfc, hft⟩⟩ := h
  simp only at htyp hbs hm hpx hfc hft
  subst htyp hbs hm
  simp only [dataFromJson, dataToJson, bind, Except.bind, Option.map_some']
  rw [b64_roundtrip bs hlt]
  simp only [Except.map]
  rw [lookup_tag cls]
  simp only [Option.getD_some]
  cases cls
  case base => exact dataInit_reconstruct _ _ _ _ _ _ hpx
  case image => exact dataInit_reconstruct _ _ _ _ _ _ hpx
  case text =>
    simp only [classInit, textDataInit, bind, Except.bind,
      dataInit_reconstruct DataClass.text A N (dataTypeTag DataClass.text) m
        (some bs) hpx]
  case code =>
    have hs : aset m "format" (PyVal.str "text") = m :=
      aset_of_lookup_eq _ _ _ (hfc rfl)
    simp only [classInit, codeDataInit, bind, Except.bind,
      dataInit_reconstruct DataClass.code A N (dataTypeTag DataClass.code) m
        (some bs) hpx, setProxy, Option.getD_some, hs]
  case table =>
    have hs : aset m "format" (PyVal.str "pandas/csv") = m :=
      aset_of_lookup_eq _ _ _ (hft rfl)
    simp only [classInit, tableDataInit, bind, Except.bind,
      dataInit_reconstruct DataClass.table A N (dataTypeTag DataClass.table) m
        (some bs) hpx, setProxy, Option.getD_some, hs]

/-- List form of the `Data` round trip, as performed by a `many` nested
field. -/
theorem nested_mapM_roundtrip (l : List DataObj) (h : ∀ d ∈ l, WFData d) :
    (l.map dataToJson).mapM (dataFromJson .base) = .ok l := by
  induction l with
  | nil => rfl
  | cons d tl ih =>
    rw [List.map_cons, List.mapM_cons, dataFromJson_toJson d (h d (by simp)),
        ih (fun p hp => h p (by simp [hp]))]
    rfl

/-- The defaulting loop of a non-lazy construction touches only attributes
that are still unset; in particular the stored `api_id` survives, and the
control fields are untouched. -/
theorem defaults_fold (sch : List (String × FieldDesc)) (acc : Entity)
    (v : PyVal) (hapi : alookup acc.attrs "api_id" = some v) :
    alookup (sch.foldl (fun acc nd =>
      if (alookup acc.attrs nd.1).isSome then acc
      else rawSet acc nd.1 PyVal.none) acc).attrs "api_id" = some v ∧
    (sch.foldl (fun acc nd =>
      if (alookup acc.attrs nd.1).isSome then acc
      else rawSet acc nd.1 PyVal.none) acc).hasData = acc.hasData ∧
    (sch.foldl (fun acc nd =>
      if (alookup acc.attrs nd.1).isSome then acc
      else rawSet acc nd.1 PyVal.none) acc).lazy = acc.lazy := by
  induction sch generalizing acc with
  | nil => exact ⟨hapi, rfl, rfl⟩
  | cons nd tl ih =>
    simp only [List.foldl_cons]
    by_cases hl : (alookup acc.attrs nd.1).isSome
    · rw [if_pos hl]
      exact ih acc hapi
    · rw [if_neg hl]
      have hne : nd.1 ≠ "api_id" := by
        intro hh
        rw [hh, hapi] at hl
        simp at hl
      have hapi2 : alookup (rawSet acc nd.1 PyVal.none).attrs "api_id" =
          some v := by
        show alookup (aset acc.attrs nd.1 PyVal.none) "api_id" = some v
        rw [alookup_aset_ne _ _ _ _ (fun hh => hne hh.symm)]
        exact hapi
      have hrec := ih (rawSet acc nd.1 PyVal.none) hapi2
      simpa using hrec

/-- Constructing an entity from an API id alone always succeeds, stores the
id, and marks the instance loaded exactly when it is not lazy. -/
theorem mkEntity_nil (ep : String) (sch : List (String × FieldDesc))
    (v : PyVal) (lz p : Bool) :
    ∃ st, mkEntity ep sch v lz [] p = .ok st ∧ apiIdOf st = v ∧
      st.hasData = !lz ∧ st.lazy = lz := by
  cases lz
  case false =>
    have hd := defaults_fold sch ⟨ep, sch, false, true, [("api_id", v)]⟩ v
      (by simp [alookup])
    exact ⟨_, rfl, by simp [apiIdOf, hd.1], hd.2.1, hd.2.2⟩
  case true =>
    exact ⟨_, rfl, by simp [apiIdOf, alookup], rfl, rfl⟩

/-- C4 (amended): the round trip `fromWire(toRepresentation(v)) == v` holds
for plain/JSON descriptors on every value including `None`, for timestamp
descriptors on datetimes and `None`, and for nested-entity descriptors on
(sequences of) well-formed `Data` values with byte payloads, including the
empty sequence. It does not hold universally: a `None` nested value raises
on the way back instead of reconstructing `None`, and a linked-entity
descriptor reconstructs a fresh default/unloaded reference that preserves
only the `api_id` of the original. -/
theorem field_round_trip_amended :
    (∀ v, toInternal .plain (toRep .plain v) = .ok v) ∧
    (∀ t, toInternal .timestamp (tsToRep (PyVal.time t)) =
        .ok (PyVal.time t)) ∧
    (toInternal .timestamp (tsToRep PyVal.none) = .ok PyVal.none) ∧
    (∀ l, (∀ d ∈ l, WFData d) →
      nestedToInternal true (nestedToRep (NestedVal.many l)) =
        .ok (NestedVal.many l)) ∧
    (∀ d, WFData d →
      nestedToInternal false (nestedToRep (NestedVal.one d)) =
        .ok (NestedVal.one d)) ∧
    (∀ mf, nestedToInternal mf (nestedToRep NestedVal.none) ≠
        .ok NestedVal.none) ∧
    (∀ ep sch lz ro blp bl e, ∃ st,
      linkedToInternal ep sch lz ro blp bl (linkedToRep (LinkedVal.one e)) =
        .ok (.one st) ∧ apiIdOf st = apiIdOf e ∧ st.hasData = !lz) := by
  refine ⟨fun v => rfl, fun t => rfl, rfl, ?_, ?_, ?_, ?_⟩
  · intro l h
    show ((l.map dataToJson).mapM (dataFromJson .base)).map NestedVal.many =
      .ok (NestedVal.many l)
    rw [nested_mapM_roundtrip l h]
    rfl
  · intro d h
    show (dataFromJson .base (dataToJson d)).map NestedVal.one =
      .ok (NestedVal.one d)
    rw [dataFromJson_toJson d h]
    rfl
  · intro mf
    cases mf <;> simp [nestedToRep, nestedToInternal]
  · intro ep sch lz ro blp bl e
    obtain ⟨st, hmk, hapi, hhd, _⟩ := mkEntity_nil ep sch (apiIdOf e) lz false
    refine ⟨st, ?_, hapi, hhd⟩
    show (mkEntity ep sch (apiIdOf e) lz [] false).map LinkedInternal.one =
      .ok (.one st)
    rw [hmk]
    rfl

/-- Counterexample for C4 as stated: a nested-entity descriptor and the
valid in-memory value `None`. `to_representation(None)` is `null`, but
`to_internal_value` raises (`Data.from_json(None)` dereferences `None`;
with `many` the `None` is not iterable) instead of reconstructing `None`. -/
theorem field_round_trip_counterexample :
    nestedToRep NestedVal.none = NestedWire.null ∧
    nestedToInternal false NestedWire.null = .error .attributeError ∧
    nestedToInternal true NestedWire.null = .error .typeError :=
  ⟨rfl, rfl, rfl⟩

/-- A concrete well-formed `TextData` object (`contents "hi"`). -/
def dW : DataObj :=
  ⟨.text, PyVal.none, PyVal.none, some "text",
   some [("encoding", PyVal.str "utf-8")], some [104, 105]⟩

theorem dW_wf : WFData dW := by
  refine ⟨rfl, ⟨[104, 105], rfl, by decide⟩,
    ⟨[("encoding", PyVal.str "utf-8")], rfl, by decide, ?_, ?_⟩⟩
  · intro h
    cases h
  · intro h
    cases h

/-- Witness for C4 (amended) at a concrete one-element nested sequence. -/
theorem field_round_trip_amended_witness :
    nestedToInternal true (nestedToRep (NestedVal.many [dW])) =
      .ok (NestedVal.many [dW]) := by
  refine field_round_trip_amended.2.2.2.1 [dW] ?_
  intro d hd
  rw [List.mem_singleton] at hd
  subst hd
  exact dW_wf

end GoFigr
